import Mathlib

/-!
Verification development for the rllib replay-buffer storage layer
(`rllib/utils/replay_buffers/storage.py` and
`rllib/utils/replay_buffers/reservoir_buffer.py`).

The Python classes are shallowly embedded as Lean structures and pure
state-passing functions.  Python integers are modelled by `Int`/`Nat`
(Python ints are unbounded), the two optional capacities (`math.inf`
allowed) by `Option Nat` (`none` means infinity), exceptions by an
explicit error component threaded through each operation together with
the state the object holds at raise time (Python leaves the partially
mutated object alive when an exception propagates), and the possibly
diverging `while` loops of `__getitem__` by fuel.  The float arithmetic
of `_warn_replay_capacity` is modelled exactly over the rationals; the
executable definition uses an equivalent cross-multiplied integer form
(proved equivalent to the rational mirror in `warnRaises_iff_Q`).
-/

/-- Item stored in a buffer: the two properties the storage layer reads,
`count` (timesteps, `item.count`) and `size_bytes` (`item.size_bytes()`). -/
structure Item where
  count : Nat
  size_bytes : Nat
deriving DecidableEq

/-- Which concrete `LocalStorage` subclass backs the three primitives:
`InMemoryStorage` or `OnDiskStorage`. -/
inductive Backend where
  | inMemory
  | onDisk
deriving DecidableEq

/-- Python exceptions that the modelled code can raise.  `outOfFuel` is not a
Python error: it is the out-of-fuel marker of the bounded eviction loop and is
proved unreachable for the fuel `Storage.add` uses (`evictLoopN_no_fuel_err`). -/
inductive PyErr where
  | valueCapacity
  | assertionError
  | attributeError
  | zeroDivisionError
  | indexError
  | runtimeError
  | typeError
  | keyError
  | outOfFuel
deriving DecidableEq

/-- State of a `LocalStorage` (fields of `LocalStorage.__init__` plus the
backend sample container `_samples`; a slot holds `none` for Python `None`).
`evicted_hit_stats` models the `WindowStat` by the list of pushed values
(push order, oldest first); no claim reads the windowed summary. -/
structure Storage where
  backend : Backend
  capacity_items : Nat
  capacity_ts : Option Nat
  capacity_bytes : Option Nat
  eviction_started : Bool
  num_items : Nat
  oldest_item_idx : Nat
  num_timesteps_added : Int
  num_timesteps : Int
  size_bytes : Int
  hit_count : List Int
  evicted_hit_stats : List Int
  samples : List (Option Item)
deriving DecidableEq

/-- Constructor `LocalStorage.__init__` / `InMemoryStorage.__init__`
(storage.py lines 30-83, 496-522): empty storage, hit counts all zero of
length `capacity_items`, samples preallocated to `None`.  The source asserts
that all capacities are positive and `capacity_items` is finite. -/
def Storage.init (backend : Backend) (capacity_items : Nat)
    (capacity_ts capacity_bytes : Option Nat) : Storage :=
  { backend := backend
    capacity_items := capacity_items
    capacity_ts := capacity_ts
    capacity_bytes := capacity_bytes
    eviction_started := false
    num_items := 0
    oldest_item_idx := 0
    num_timesteps_added := 0
    num_timesteps := 0
    size_bytes := 0
    hit_count := List.replicate capacity_items 0
    evicted_hit_stats := []
    samples := List.replicate capacity_items none }

/-- Condition of the eviction `while` loop in `LocalStorage.add`
(storage.py lines 261-267): `num_timesteps > capacity_ts or size_bytes >
capacity_bytes or num_items >= capacity_items`; a comparison against an
infinite capacity is false. -/
def Storage.evictCond (s : Storage) : Bool :=
  (match s.capacity_ts with
   | some c => decide (s.num_timesteps > (c : Int))
   | none => false) ||
  (match s.capacity_bytes with
   | some c => decide (s.size_bytes > (c : Int))
   | none => false) ||
  decide (s.num_items ≥ s.capacity_items)

/-- Backend `__delitem__` (storage.py lines 549-555 for `InMemoryStorage`,
714-723 for `OnDiskStorage`).  In memory: read the slot — an index beyond
the list raises `IndexError`, a `None` slot is returned as a value — then
clear it, push the slot hit count into the eviction stats (the numpy read
`self._hit_count[i]` raises `IndexError` beyond the array, after the slot
was already cleared), and zero the hit count.  On disk: a never-written key
raises `KeyError`; the slot is deliberately not deleted; the same hit-count
push raises `IndexError` beyond the array, with nothing mutated yet.
Returns the new state and the removed value (`.ok none` models returning
`None`). -/
def Storage.delitem (s : Storage) (i : Nat) : Storage × Except PyErr (Option Item) :=
  match s.backend with
  | .inMemory =>
    if i < s.samples.length then
      if i < s.hit_count.length then
        ({ s with samples := s.samples.set i none
                  evicted_hit_stats := s.evicted_hit_stats ++ [s.hit_count.getD i 0]
                  hit_count := s.hit_count.set i 0 }, .ok (s.samples.getD i none))
      else ({ s with samples := s.samples.set i none }, .error .indexError)
    else (s, .error .indexError)
  | .onDisk =>
    match s.samples.getD i none with
    | none => (s, .error .keyError)
    | some v =>
      if i < s.hit_count.length then
        ({ s with evicted_hit_stats := s.evicted_hit_stats ++ [s.hit_count.getD i 0]
                  hit_count := s.hit_count.set i 0 }, .ok (some v))
      else (s, .error .indexError)

/-- One iteration of the eviction loop body in `LocalStorage.add`
(storage.py lines 268-276): set `eviction_started`, push the hit count of the
oldest slot into the eviction stats, zero it, `__delitem__` the oldest slot
(which pushes the now-zero hit count a second time), subtract the dropped
item counters, decrement `num_items`, advance `oldest_item_idx` by
`_get_internal_index(1)`.  A `None` slot makes `drop_item.count` raise
`AttributeError` with the state mutated up to the `__delitem__` call. -/
def Storage.evictOnce (s : Storage) : Storage × Except PyErr Item :=
  let o := s.oldest_item_idx
  let s1 : Storage :=
    { s with eviction_started := true
             evicted_hit_stats := s.evicted_hit_stats ++ [s.hit_count.getD o 0]
             hit_count := s.hit_count.set o 0 }
  let r := Storage.delitem s1 o
  match r with
  | (s2, .error e) => (s2, .error e)
  | (s2, .ok none) => (s2, .error .attributeError)
  | (s2, .ok (some d)) =>
    ({ s2 with num_timesteps := s2.num_timesteps - d.count
               size_bytes := s2.size_bytes - d.size_bytes
               num_items := s2.num_items - 1
               oldest_item_idx := (o + 1) % max 1 s.capacity_items }, .ok d)

/-- Eviction loop of `LocalStorage.add` (storage.py lines 261-276), bounded
by a fuel argument so that it is structurally recursive; each successful
iteration decrements `num_items` by one, so `Storage.add` runs it with fuel
`num_items`, which is proved sufficient (`evictLoopN_no_fuel_err`).  Returns
the final state, the number of evictions performed, and the error raised, if
any (`assert self._num_items > 0` raising on an exhausted storage). -/
def Storage.evictLoopN : Nat → Storage → Storage × Nat × Option PyErr
  | 0, s =>
    if Storage.evictCond s then
      if s.num_items = 0 then (s, 0, some .assertionError)
      else (s, 0, some .outOfFuel)
    else (s, 0, none)
  | fuel + 1, s =>
    if Storage.evictCond s then
      if s.num_items = 0 then (s, 0, some .assertionError)
      else
        match Storage.evictOnce s with
        | (s1, .error e) => (s1, 0, some e)
        | (s1, .ok _) =>
          let r := Storage.evictLoopN fuel s1
          (r.1, r.2.1 + 1, r.2.2)
    else (s, 0, none)

/-- Decision of `_warn_replay_capacity` (storage.py lines 557-595 and
740-778): raise `ValueError` iff
`max(capacity_items * item_size, capacity_ts * ts_size) / 1e9 - size_bytes / 1e9
 > available / 1e9`, with `ts_size = item_size / item.count` and the
`capacity_ts == inf` branch using `-1` for the second term.  This is the
exact cross-multiplied integer form of that (real-valued) comparison;
`warnRaises_iff_Q` proves it equivalent to the literal rational-arithmetic
mirror `Storage.warnRaisesQ`.  `avail` is the free memory (in-memory backend)
or free disk space (on-disk backend) in bytes reported by the system. -/
def Storage.warnRaises (s : Storage) (item : Item) (avail : Nat) : Bool :=
  let A : Int := (s.capacity_items : Int) * (item.size_bytes : Int)
  let rhs : Int := (avail : Int) + s.size_bytes
  decide (A > rhs) ||
    (match s.capacity_ts with
     | none => decide (rhs < -1)
     | some c =>
       decide ((c : Int) * (item.size_bytes : Int) > rhs * (item.count : Int)))

/-- Literal rational-arithmetic mirror of the raise condition of
`_warn_replay_capacity` (storage.py lines 559-589), following the source
line by line with exact rational arithmetic in place of Python floats. -/
def Storage.warnRaisesQ (s : Storage) (item : Item) (avail : Nat) : Prop :=
  let item_size : ℚ := (item.size_bytes : ℚ)
  let ts_size : ℚ := item_size / (item.count : ℚ)
  let free_gb : ℚ := (avail : ℚ) / 1000000000
  let max_size_for_ts_capacity : ℚ :=
    match s.capacity_ts with
    | none => -1
    | some c => (c : ℚ) * ts_size
  let est_final_size : ℚ :=
    max ((s.capacity_items : ℚ) * item_size) max_size_for_ts_capacity / 1000000000
  let remainder : ℚ := est_final_size - (s.size_bytes : ℚ) / 1000000000
  remainder > free_gb

/-- Entry of `_warn_replay_capacity` as called from `_set`: computing
`ts_size = item_size / item.count` (or, on disk, the call-site argument
`capacity_items / item.count`) raises `ZeroDivisionError` for a zero-count
item before any state change; otherwise the `ValueError` branch fires iff
`Storage.warnRaises`. -/
def Storage.warnCheck (s : Storage) (item : Item) (avail : Nat) : Option PyErr :=
  if item.count = 0 then some .zeroDivisionError
  else if Storage.warnRaises s item avail then some .valueCapacity
  else none

/-- Backend `_set` (storage.py lines 541-547 and 708-712): run
`_warn_replay_capacity` (which may raise, leaving the state unchanged),
then write the slot (the in-memory append branch for `idx == len(samples)`
is kept). -/
def Storage.setslot (s : Storage) (idx : Nat) (item : Item) (avail : Nat) :
    Storage × Option PyErr :=
  match Storage.warnCheck s item avail with
  | some e => (s, some e)
  | none =>
    ({ s with samples :=
        if idx = s.samples.length then s.samples ++ [some item]
        else s.samples.set idx (some item) }, none)

/-- Method `LocalStorage.add` (storage.py lines 236-284): reject an item
with `count > capacity_items` (warning only, complete no-op); otherwise add
the item counters, run the eviction loop, then `_set` the new item at
`_get_internal_index(num_items)` and increment `num_items`; the final
`assert num_items <= capacity_items` raises if violated.  Returns the state
at return or raise time, the number of evictions performed, and the raised
error, if any. -/
def Storage.add (s : Storage) (item : Item) (avail : Nat) :
    Storage × Nat × Option PyErr :=
  if item.count > s.capacity_items then (s, 0, none)
  else
    let s1 : Storage :=
      { s with num_timesteps_added := s.num_timesteps_added + item.count
               num_timesteps := s.num_timesteps + item.count
               size_bytes := s.size_bytes + item.size_bytes }
    let r := Storage.evictLoopN s1.num_items s1
    match r with
    | (s2, k, some e) => (s2, k, some e)
    | (s2, k, none) =>
      let idx := (s2.oldest_item_idx + s2.num_items) % max 1 s2.capacity_items
      match Storage.setslot s2 idx item avail with
      | (s3, some e) => (s3, k, some e)
      | (s3, none) =>
        let s4 : Storage := { s3 with num_items := s3.num_items + 1 }
        if s4.num_items ≤ s4.capacity_items then (s4, k, none)
        else (s4, k, some .assertionError)

/-- Loop `while i < 0: i += len(self)` of `__getitem__` (storage.py lines
193-194 and 459-460), bounded by fuel; `none` means the fuel ran out before
the loop finished (with zero length and a negative start it never does). -/
def whileUp : Nat → Int → Int → Option Int
  | 0, _, i => if i < 0 then none else some i
  | fuel + 1, len, i => if i < 0 then whileUp fuel len (i + len) else some i

/-- Loop `while i >= len(self): i -= len(self)` of `__getitem__` (storage.py
lines 195-196 and 461-462), bounded by fuel. -/
def whileDown : Nat → Int → Int → Option Int
  | 0, len, i => if i ≥ len then none else some i
  | fuel + 1, len, i => if i ≥ len then whileDown fuel len (i - len) else some i

/-- Index normalization of `__getitem__` for an integer key: the two wrap
loops in sequence. -/
def normIdx (fuel : Nat) (len : Int) (i : Int) : Option Int :=
  match whileUp fuel len i with
  | none => none
  | some j => whileDown fuel len j

/-- Outcome of an indexed read: divergence of the wrap loops, a raised
error (with the state the object holds at raise time), or a result (the new
storage state and the slot value, which is the Python `None` for a
never-written in-memory slot). -/
inductive GetRes where
  | div
  | err (s : Storage) (e : PyErr)
  | ok (s : Storage) (it : Option Item)
deriving DecidableEq

/-- Integer-key branch of `LocalStorage.__getitem__` (storage.py lines
190-199): wrap the key with the two `while` loops, translate through
`_get_internal_index`, increment the hit count of the physical slot, return
`_get(idx)` without consuming it.  The `hit_count` numpy indexing raises
`IndexError` for a slot outside the array; the backend `_get` then reads
the slot — in memory `self._samples[idx]` raises `IndexError` beyond the
list (a `None` slot is returned as a value), on disk `self._samples[str(idx)]`
raises `KeyError` for a never-written key — with the hit-count increment
already committed at raise time. -/
def Storage.getitemInt (fuel : Nat) (s : Storage) (i : Int) : GetRes :=
  match normIdx fuel (s.num_items : Int) i with
  | none => .div
  | some j =>
    if j < 0 then .err s .indexError
    else
      let idx := (s.oldest_item_idx + j.toNat) % max 1 s.capacity_items
      if idx < s.hit_count.length then
        let s1 : Storage :=
          { s with hit_count := s.hit_count.set idx (s.hit_count.getD idx 0 + 1) }
        match s.backend with
        | .inMemory =>
          if idx < s.samples.length then .ok s1 (s.samples.getD idx none)
          else .err s1 .indexError
        | .onDisk =>
          match s.samples.getD idx none with
          | none => .err s1 .keyError
          | some v => .ok s1 (some v)
      else .err s .indexError

/-- Method `LocalStorage.__setitem__` (storage.py lines 207-233): reject an
out-of-range index (`IndexError`) or a storage that has not started evicting
(`RuntimeError`); otherwise `__delitem__` the physical slot, warn iff the
dropped item has fewer timesteps than the new one (`drop_item.count <
item.count`), push the (now zero) hit count into the eviction stats again —
the numpy read `self._hit_count[idx]` at line 226 raises `IndexError`
beyond the array, before any counter moves — then subtract the dropped
counters, add the new counters, and `_set` the new item.  Returns the
state, whether the warning fired, and the raised error, if any. -/
def Storage.setitem (s : Storage) (i : Int) (item : Item) (avail : Nat) :
    Storage × Bool × Option PyErr :=
  if i ≥ (s.num_items : Int) ∨ i < 0 then (s, false, some .indexError)
  else if s.eviction_started = false then (s, false, some .runtimeError)
  else
    let idx := (s.oldest_item_idx + i.toNat) % max 1 s.capacity_items
    match Storage.delitem s idx with
    | (s1, .error e) => (s1, false, some e)
    | (s1, .ok none) => (s1, false, some .attributeError)
    | (s1, .ok (some d)) =>
      let warned := decide (d.count < item.count)
      if idx < s1.hit_count.length then
        let s2 : Storage :=
          { s1 with
              evicted_hit_stats := s1.evicted_hit_stats ++ [s1.hit_count.getD idx 0]
              num_timesteps := s1.num_timesteps - d.count + item.count
              size_bytes := s1.size_bytes - d.size_bytes + item.size_bytes
              hit_count := s1.hit_count.set idx 0
              num_timesteps_added := s1.num_timesteps_added + item.count }
        match Storage.setslot s2 idx item avail with
        | (s3, e) => (s3, warned, e)
      else (s1, warned, some .indexError)

/-- Snapshot record of `get_state` (storage.py lines 134-151 and 524-529):
the nine scalar fields plus, for the in-memory backend, the sample list.
The hit-count array is deliberately absent. -/
structure StorageState where
  capacity_ts : Option Nat
  capacity_items : Nat
  capacity_bytes : Option Nat
  num_items : Nat
  oldest_item_idx : Nat
  eviction_started : Bool
  num_timesteps_added : Int
  num_timesteps : Int
  size_bytes : Int
  samples : List (Option Item)
deriving DecidableEq

/-- Method `InMemoryStorage.get_state` (storage.py lines 134-151, 524-529). -/
def Storage.get_state (s : Storage) : StorageState :=
  { capacity_ts := s.capacity_ts
    capacity_items := s.capacity_items
    capacity_bytes := s.capacity_bytes
    num_items := s.num_items
    oldest_item_idx := s.oldest_item_idx
    eviction_started := s.eviction_started
    num_timesteps_added := s.num_timesteps_added
    num_timesteps := s.num_timesteps
    size_bytes := s.size_bytes
    samples := s.samples }

/-- Method `InMemoryStorage.set_state` (storage.py lines 153-170, 531-535):
restore the sample list and the nine scalar fields, then rebuild the
hit-count array as zeros of length `capacity_items`; the eviction statistics
window is not part of the state and is left as it was. -/
def Storage.set_state (s : Storage) (st : StorageState) : Storage :=
  { s with capacity_ts := st.capacity_ts
           capacity_items := st.capacity_items
           capacity_bytes := st.capacity_bytes
           num_items := st.num_items
           oldest_item_idx := st.oldest_item_idx
           eviction_started := st.eviction_started
           num_timesteps_added := st.num_timesteps_added
           num_timesteps := st.num_timesteps
           size_bytes := st.size_bytes
           samples := st.samples
           hit_count := List.replicate st.capacity_items 0 }

/-- Length of the Python builtin `range(a, b, st)` for nonzero `st`:
`max(0, ceil((b - a) / st))` elements. -/
def pyRangeLen (a b st : Int) : Nat :=
  if st > 0 then ((b - a + st - 1) / st).toNat
  else if st < 0 then ((a - b + (-st) - 1) / (-st)).toNat
  else 0

/-- The Python builtin `list(range(a, b, st))` for nonzero `st`. -/
def pyRange (a b st : Int) : List Int :=
  (List.range (pyRangeLen a b st)).map (fun k => a + st * k)

/-- Index-map construction of `StorageView.__init__` (storage.py lines
375-397) over a parent of length `len`: `step = slice.step or 1`,
`start = slice.start or default`, `stop = slice.stop or default` — note the
Python `or`, under which an explicit `0` (falsy) selects the default — with
the negative-step default stop `-(len + 1)` shifted by `+len` only when
`slice.stop is None`, then `list(range(start, stop, step))`. -/
def viewIdxMap (len : Nat) (start stop step : Option Int) : List Int :=
  let st : Int := match step with | none => 1 | some v => if v = 0 then 1 else v
  if st > 0 then
    let a : Int := match start with | none => 0 | some v => v
    let b : Int := match stop with
      | none => (len : Int)
      | some v => if v = 0 then (len : Int) else v
    pyRange a b st
  else
    let a : Int := match start with
      | none => (len : Int) - 1
      | some v => if v = 0 then (len : Int) - 1 else v
    let b0 : Int := match stop with
      | none => -((len : Int) + 1)
      | some v => if v = 0 then -((len : Int) + 1) else v
    let b : Int := if stop = none then b0 + (len : Int) else b0
    pyRange a b st

/-- A `StorageView` (storage.py lines 372-489): the parent storage and the
logical-index list materialized at construction. -/
structure StorageView where
  storage : Storage
  idx_map : List Int
deriving DecidableEq

/-- Constructor `StorageView.__init__` from a parent storage and the raw
slice fields (each `none` when omitted). -/
def StorageView.init (storage : Storage) (start stop step : Option Int) :
    StorageView :=
  { storage := storage
    idx_map := viewIdxMap storage.num_items start stop step }

/-- Integer-key branch of `StorageView.__getitem__` (storage.py lines
456-464): wrap the key with the same two `while` loops over
`len(idx_map)`, then read `self._storage[idx_map[i]]`, which recurses into
the parent `__getitem__` (and its wrap loops). -/
def StorageView.getitemInt (fuel : Nat) (v : StorageView) (i : Int) : GetRes :=
  match normIdx fuel (v.idx_map.length : Int) i with
  | none => .div
  | some j => Storage.getitemInt fuel v.storage (v.idx_map.getD j.toNat 0)

/-- Modelled from the spec: conventional Python sequence-slicing semantics
(`slice.indices` plus `range`), the reference the view construction is
compared against in claim C5.  Omitted bounds default per the step sign;
explicit bounds are translated from the end when negative and clamped into
`[0, len]` (positive step) or `[-1, len - 1]` (negative step). -/
def pySliceIndices (len : Nat) (start stop step : Option Int) : List Int :=
  let st : Int := step.getD 1
  let L : Int := (len : Int)
  if st > 0 then
    let a : Int := match start with
      | none => 0
      | some v => if v < 0 then max 0 (v + L) else min v L
    let b : Int := match stop with
      | none => L
      | some v => if v < 0 then max 0 (v + L) else min v L
    pyRange a b st
  else
    let a : Int := match start with
      | none => L - 1
      | some v => if v < 0 then max (-1) (v + L) else min v (L - 1)
    let b : Int := match stop with
      | none => -1
      | some v => if v < 0 then max (-1) (v + L) else min v (L - 1)
    pyRange a b st

/-- Region of slice arguments on which claim C5 is settled: the step is
present-and-nonzero or omitted, and each explicit bound is nonzero and lies
in `[0, len]` for a positive step or in `[1, len - 1]` for a negative one. -/
def sliceOK (len : Nat) (start stop step : Option Int) : Prop :=
  (step = none ∨ ∃ v, step = some v ∧ v ≠ 0) ∧
  (let st := step.getD 1
   if st > 0 then
     (start = none ∨ ∃ v, start = some v ∧ 0 ≤ v ∧ v ≤ (len : Int)) ∧
     (stop = none ∨ ∃ v, stop = some v ∧ 1 ≤ v ∧ v ≤ (len : Int))
   else
     (start = none ∨ ∃ v, start = some v ∧ 1 ≤ v ∧ v ≤ (len : Int) - 1) ∧
     (stop = none ∨ ∃ v, stop = some v ∧ 1 ≤ v ∧ v ≤ (len : Int) - 1))

/-- State of a `ReservoirBuffer` (reservoir_buffer.py lines 18-38): the
lifetime add counter, the policy eviction counter, and the wrapped storage. -/
structure ReservoirState where
  num_add_calls : Nat
  num_evicted : Nat
  storage : Storage
deriving DecidableEq

/-- Method `ReservoirBuffer._add_single_batch` (reservoir_buffer.py lines
42-62).  The random draw `random.randint(0, num_add_calls - 1)` (inclusive
bounds, counter already incremented) is supplied as the oracle argument `j`.
Modelled from the spec: the parent `ReplayBuffer._add_single_batch(self,
item)` used by the not-yet-evicting branch is not part of the sources; the
spec says it delegates the item to the normal FIFO `add` of the storage.
The source call `ReplayBuffer._add_single_batch(item, **kwargs)` omits
`self` (every other parent call in the file passes it), so Python binds
`item` to `self`, finds the `item` parameter missing, and raises
`TypeError` before touching the storage; the model reproduces that raise. -/
def ReservoirState.addSingle (rs : ReservoirState) (item : Item) (j : Nat)
    (avail : Nat) : ReservoirState × Option PyErr :=
  let rs1 : ReservoirState := { rs with num_add_calls := rs.num_add_calls + 1 }
  if rs1.storage.eviction_started then
    if j < rs1.storage.num_items then
      let rs2 : ReservoirState := { rs1 with num_evicted := rs1.num_evicted + 1 }
      match Storage.setitem rs2.storage (j : Int) item avail with
      | (st, _, e) => ({ rs2 with storage := st }, e)
    else (rs1, none)
  else (rs1, some .typeError)

/-- A defaulted list read returning a non-default value implies the index is
in range. -/
lemma getD_some_lt {l : List (Option Item)} {i : Nat} {d : Item}
    (h : l.getD i none = some d) : i < l.length := by
  by_contra hn
  rw [List.getD_eq_getElem?_getD, List.getElem?_eq_none (by omega)] at h
  simp at h

/-- Fields of the storage that `__delitem__` never touches. -/
lemma delitem_fields (s : Storage) (i : Nat) :
    (Storage.delitem s i).1.capacity_items = s.capacity_items ∧
    (Storage.delitem s i).1.capacity_ts = s.capacity_ts ∧
    (Storage.delitem s i).1.capacity_bytes = s.capacity_bytes ∧
    (Storage.delitem s i).1.num_items = s.num_items ∧
    (Storage.delitem s i).1.num_timesteps = s.num_timesteps ∧
    (Storage.delitem s i).1.size_bytes = s.size_bytes ∧
    (Storage.delitem s i).1.num_timesteps_added = s.num_timesteps_added ∧
    (Storage.delitem s i).1.oldest_item_idx = s.oldest_item_idx ∧
    (Storage.delitem s i).1.eviction_started = s.eviction_started := by
  unfold Storage.delitem
  rcases s.backend <;> dsimp only
  · split <;> (try split) <;> simp
  · rcases h : s.samples.getD i none <;> dsimp only <;> (try split) <;> simp

/-- Fields preserved by one eviction step, and the decrement of `num_items`
on success. -/
lemma evictOnce_spec (s : Storage) :
    (Storage.evictOnce s).1.capacity_items = s.capacity_items ∧
    (Storage.evictOnce s).1.capacity_ts = s.capacity_ts ∧
    (Storage.evictOnce s).1.capacity_bytes = s.capacity_bytes ∧
    (Storage.evictOnce s).1.num_timesteps_added = s.num_timesteps_added ∧
    (Storage.evictOnce s).1.num_items ≤ s.num_items ∧
    (∀ d, (Storage.evictOnce s).2 = .ok d →
      (Storage.evictOnce s).1.num_items = s.num_items - 1) := by
  have hf := delitem_fields
    { s with eviction_started := true
             evicted_hit_stats :=
               s.evicted_hit_stats ++ [s.hit_count.getD s.oldest_item_idx 0]
             hit_count := s.hit_count.set s.oldest_item_idx 0 }
    s.oldest_item_idx
  simp only [Storage.evictOnce]
  rcases hd : Storage.delitem
      { s with eviction_started := true
               evicted_hit_stats :=
                 s.evicted_hit_stats ++ [s.hit_count.getD s.oldest_item_idx 0]
               hit_count := s.hit_count.set s.oldest_item_idx 0 }
      s.oldest_item_idx with ⟨s2, r⟩
  rw [hd] at hf
  dsimp only at hf ⊢
  rcases r with e | v
  · dsimp only
    exact ⟨hf.1, hf.2.1, hf.2.2.1, hf.2.2.2.2.2.2.1, by omega, by simp⟩
  · rcases v with _ | d
    · dsimp only
      exact ⟨hf.1, hf.2.1, hf.2.2.1, hf.2.2.2.2.2.2.1, by omega, by simp⟩
    · dsimp only
      refine ⟨hf.1, hf.2.1, hf.2.2.1, hf.2.2.2.2.2.2.1, by omega, ?_⟩
      intro d2 hd2
      omega

/-- Errors that `__delitem__` can raise. -/
lemma delitem_err (s : Storage) (i : Nat) (s1 : Storage) (e : PyErr)
    (h : Storage.delitem s i = (s1, .error e)) :
    e = .indexError ∨ e = .keyError := by
  unfold Storage.delitem at h
  split at h <;> (try split at h) <;> (try split at h) <;> simp_all

/-- Errors that one eviction step can raise. -/
lemma evictOnce_err (s : Storage) (s1 : Storage) (e : PyErr)
    (h : Storage.evictOnce s = (s1, .error e)) :
    e = .indexError ∨ e = .keyError ∨ e = .attributeError := by
  simp only [Storage.evictOnce] at h
  rcases hd : Storage.delitem
      { s with eviction_started := true
               evicted_hit_stats :=
                 s.evicted_hit_stats ++ [s.hit_count.getD s.oldest_item_idx 0]
               hit_count := s.hit_count.set s.oldest_item_idx 0 }
      s.oldest_item_idx with ⟨s2, r⟩
  rw [hd] at h
  rcases r with e2 | v
  · dsimp only at h
    have := delitem_err _ _ _ _ hd
    rcases this with h1 | h1 <;> simp_all
  · rcases v with _ | d <;> simp_all

lemma evictLoopN_spec (n : Nat) (s : Storage) :
    (Storage.evictLoopN n s).1.capacity_items = s.capacity_items ∧
    (Storage.evictLoopN n s).1.capacity_ts = s.capacity_ts ∧
    (Storage.evictLoopN n s).1.capacity_bytes = s.capacity_bytes ∧
    (Storage.evictLoopN n s).1.num_timesteps_added = s.num_timesteps_added ∧
    (Storage.evictLoopN n s).1.num_items ≤ s.num_items ∧
    ((Storage.evictLoopN n s).2.2 = none →
      Storage.evictCond (Storage.evictLoopN n s).1 = false) ∧
    (Storage.evictLoopN n s).2.2 ≠ some .valueCapacity ∧
    (Storage.evictLoopN n s).2.2 ≠ some .zeroDivisionError := by
  induction n generalizing s with
  | zero =>
    simp only [Storage.evictLoopN]
    split
    case isTrue hcond =>
      split <;> simp
    case isFalse hcond =>
      simp_all
  | succ n ih =>
    simp only [Storage.evictLoopN]
    split
    case isFalse hcond => simp_all
    case isTrue hcond =>
      split
      case isTrue => simp
      case isFalse hnz =>
        have hs := evictOnce_spec s
        rcases hd : Storage.evictOnce s with ⟨s1, r⟩
        rw [hd] at hs
        dsimp only at hs
        rcases r with e | d
        · dsimp only
          have he2 := evictOnce_err _ _ _ hd
          refine ⟨hs.1, hs.2.1, hs.2.2.1, hs.2.2.2.1, by omega, by simp, ?_, ?_⟩ <;>
            rcases he2 with h1 | h1 | h1 <;> simp_all
        · dsimp only
          have hrec := ih s1
          refine ⟨by rw [hrec.1, hs.1], by rw [hrec.2.1, hs.2.1],
            by rw [hrec.2.2.1, hs.2.2.1], by rw [hrec.2.2.2.1, hs.2.2.2.1],
            by have := hrec.2.2.2.2.1; omega,
            hrec.2.2.2.2.2.1, hrec.2.2.2.2.2.2.1, hrec.2.2.2.2.2.2.2⟩

/-- A false eviction condition implies the storage is below its item bound. -/
lemma evictCond_false_lt (s : Storage) (h : Storage.evictCond s = false) :
    s.num_items < s.capacity_items := by
  unfold Storage.evictCond at h
  rcases Bool.or_eq_false_iff.mp h with ⟨-, h2⟩
  simpa using h2

/-- Fields of the storage that `_set` never touches. -/
lemma setslot_fields (s : Storage) (idx : Nat) (item : Item) (avail : Nat) :
    (Storage.setslot s idx item avail).1.capacity_items = s.capacity_items ∧
    (Storage.setslot s idx item avail).1.capacity_ts = s.capacity_ts ∧
    (Storage.setslot s idx item avail).1.capacity_bytes = s.capacity_bytes ∧
    (Storage.setslot s idx item avail).1.num_items = s.num_items ∧
    (Storage.setslot s idx item avail).1.num_timesteps = s.num_timesteps ∧
    (Storage.setslot s idx item avail).1.size_bytes = s.size_bytes ∧
    (Storage.setslot s idx item avail).1.num_timesteps_added = s.num_timesteps_added ∧
    (Storage.setslot s idx item avail).1.oldest_item_idx = s.oldest_item_idx ∧
    (Storage.setslot s idx item avail).1.eviction_started = s.eviction_started ∧
    (Storage.setslot s idx item avail).1.hit_count = s.hit_count ∧
    (Storage.setslot s idx item avail).1.evicted_hit_stats = s.evicted_hit_stats := by
  unfold Storage.setslot
  split <;> simp

/-- The fuel `Storage.add` passes to the eviction loop is sufficient: the
out-of-fuel marker is unreachable whenever the fuel is at least `num_items`. -/
lemma evictLoopN_no_fuel_err (n : Nat) (s : Storage) (h : s.num_items ≤ n) :
    (Storage.evictLoopN n s).2.2 ≠ some .outOfFuel := by
  induction n generalizing s with
  | zero =>
    simp only [Storage.evictLoopN]
    split
    case isTrue hcond =>
      split
      case isTrue => simp
      case isFalse hnz => omega
    case isFalse hcond => simp
  | succ n ih =>
    simp only [Storage.evictLoopN]
    split
    case isFalse hcond => simp
    case isTrue hcond =>
      split
      case isTrue => simp
      case isFalse hnz =>
        have hs := evictOnce_spec s
        rcases hd : Storage.evictOnce s with ⟨s1, r⟩
        rw [hd] at hs
        dsimp only at hs
        rcases r with e | d
        · dsimp only
          have he2 := evictOnce_err _ _ _ hd
          rcases he2 with h1 | h1 | h1 <;> simp [h1]
        · dsimp only
          have hlt : s1.num_items ≤ n := by
            have := hs.2.2.2.2.2 d rfl
            omega
          exact ih s1 hlt

/-- Fidelity of the integer guard decision to the source formula: for a
positive-count item, `Storage.warnRaises` holds exactly when the literal
rational transcription `Storage.warnRaisesQ` of `_warn_replay_capacity`
holds. -/
lemma warnRaises_iff_Q (s : Storage) (item : Item) (avail : Nat)
    (h : 0 < item.count) :
    Storage.warnRaises s item avail = true ↔ Storage.warnRaisesQ s item avail := by
  unfold Storage.warnRaises Storage.warnRaisesQ
  dsimp only
  have c9 : (0 : ℚ) < 1000000000 := by norm_num
  have hcnt : (0 : ℚ) < (item.count : ℚ)  := by exact_mod_cast h
  rcases hts : s.capacity_ts with _ | c
  · dsimp only
    rw [div_sub_div_same]
    simp only [gt_iff_lt]
    rw [div_lt_div_iff_of_pos_right c9, lt_sub_iff_add_lt, lt_max_iff]
    simp only [Bool.or_eq_true, decide_eq_true_eq]
    constructor
    · rintro (h1 | h1)
      · left
        exact_mod_cast h1
      · right
        have : ((avail : Int) + s.size_bytes : ℚ) < -1 := by exact_mod_cast h1
        push_cast at this ⊢
        linarith
    · rintro (h1 | h1)
      · left
        have : ((s.capacity_items : Int) * (item.size_bytes : Int) : ℚ) >
            ((avail : Int) + s.size_bytes : ℚ) := by push_cast; linarith
        exact_mod_cast this
      · right
        have : ((avail : Int) + s.size_bytes : ℚ) < -1 := by push_cast; linarith
        exact_mod_cast this
  · dsimp only
    rw [div_sub_div_same]
    simp only [gt_iff_lt]
    rw [div_lt_div_iff_of_pos_right c9, lt_sub_iff_add_lt, lt_max_iff]
    simp only [Bool.or_eq_true, decide_eq_true_eq]
    have hdiv : ∀ x : ℚ, x < (c : ℚ) * ((item.size_bytes : ℚ) / (item.count : ℚ)) ↔
        x * (item.count : ℚ) < (c : ℚ) * (item.size_bytes : ℚ) := by
      intro x
      rw [mul_div_assoc', lt_div_iff₀ hcnt]
    constructor
    · rintro (h1 | h1)
      · left
        exact_mod_cast h1
      · right
        rw [hdiv]
        have : ((avail : Int) + s.size_bytes : ℚ) * (item.count : ℚ) <
            (c : ℚ) * (item.size_bytes : ℚ) := by exact_mod_cast h1
        push_cast at this ⊢
        linarith
    · rintro (h1 | h1)
      · left
        have : ((s.capacity_items : Int) * (item.size_bytes : Int) : ℚ) >
            ((avail : Int) + s.size_bytes : ℚ) := by push_cast; linarith
        exact_mod_cast this
      · right
        rw [hdiv] at h1
        have : ((avail : Int) + s.size_bytes) * (item.count : Int) <
            (c : Int) * (item.size_bytes : Int) := by exact_mod_cast h1
        exact_mod_cast this

/-- A large free-resource figure (one exabyte) under which the capacity guard
admits every small write in the concrete examples below. -/
def bigA : Nat := 1000000000000000000

/-- A storage of capacity 3 filled with three one-timestep items. -/
def exFull3 : Storage :=
  (Storage.add (Storage.add (Storage.add
    (Storage.init .inMemory 3 none none) ⟨1, 1⟩ bigA).1 ⟨1, 2⟩ bigA).1 ⟨1, 3⟩ bigA).1

/-- A storage with `capacity_ts = 2` holding two one-timestep items. -/
def exTs2 : Storage :=
  (Storage.add (Storage.add
    (Storage.init .inMemory 10 (some 2) none) ⟨1, 1⟩ bigA).1 ⟨1, 1⟩ bigA).1

/-- An empty in-memory storage with `capacity_items = 2`. -/
def sInit2 : Storage := Storage.init .inMemory 2 none none

/-- Claim C6: restoring a snapshot, `set_state (get_state S)`, reproduces
every capacity field, live counter, `oldest_item_idx`, `eviction_started`
and the stored items of `S`, while the hit-count array is reinitialized to
zeros of length `capacity_items` regardless of its previous content. -/
theorem claim_C6 (s : Storage) :
    Storage.set_state s (Storage.get_state s) =
      { s with hit_count := List.replicate s.capacity_items 0 } := rfl

/-- Claim C7: an item whose `count` exceeds `capacity_items` makes `add` a
pure no-op apart from the logged warning: the returned state is exactly the
prior state, no eviction happens and no error reaches the caller. -/
theorem claim_C7 (s : Storage) (item : Item) (avail : Nat)
    (h : item.count > s.capacity_items) :
    Storage.add s item avail = (s, 0, none) := by
  unfold Storage.add
  rw [if_pos h]

/-- Witness for claim C7 at a concrete oversized item. -/
theorem claim_C7_witness :
    Storage.add sInit2 ⟨3, 1⟩ bigA = (sInit2, 0, none) :=
  claim_C7 sInit2 ⟨3, 1⟩ bigA (by decide)

/-- Claim C4 (code bug witness): on a buffer whose storage has not begun
evicting, `_add_single_batch` increments the lifetime add counter and then
raises `TypeError` from the self-less call
`ReplayBuffer._add_single_batch(item, **kwargs)`; the offered item never
reaches the storage, contradicting the documented delegation to FIFO `add`. -/
theorem claim_C4 :
    ReservoirState.addSingle
        { num_add_calls := 0, num_evicted := 0
          storage := Storage.init .inMemory 3 none none } ⟨1, 1⟩ 0 bigA =
      ({ num_add_calls := 1, num_evicted := 0
         storage := Storage.init .inMemory 3 none none }, some .typeError) := by
  decide

/-- Claim C1: whenever `num_items ≤ capacity_items` holds before `add`, it
holds for the state `add` leaves behind (also at raise time); and a single
`add` may perform zero, one, or two evictions, shown on concrete runs. -/
theorem claim_C1 (s : Storage) (item : Item) (avail : Nat)
    (h : s.num_items ≤ s.capacity_items) :
    (Storage.add s item avail).1.num_items ≤ s.capacity_items ∧
    (Storage.add (Storage.init .inMemory 3 none none) ⟨1, 1⟩ bigA).2.1 = 0 ∧
    (Storage.add exFull3 ⟨1, 4⟩ bigA).2.1 = 1 ∧
    (Storage.add exTs2 ⟨2, 1⟩ bigA).2.1 = 2 := by
  refine ⟨?_, by decide, by decide, by decide⟩
  unfold Storage.add
  split
  case isTrue => exact h
  case isFalse hbig =>
    dsimp only
    rcases hE : Storage.evictLoopN s.num_items
        { s with num_timesteps_added := s.num_timesteps_added + item.count
                 num_timesteps := s.num_timesteps + item.count
                 size_bytes := s.size_bytes + item.size_bytes } with ⟨s2, k2, e⟩
    have hspec := evictLoopN_spec s.num_items
      { s with num_timesteps_added := s.num_timesteps_added + item.count
               num_timesteps := s.num_timesteps + item.count
               size_bytes := s.size_bytes + item.size_bytes }
    rw [hE] at hspec
    dsimp only at hspec
    rcases e with _ | e
    · dsimp only
      have hcf := evictCond_false_lt s2 (hspec.2.2.2.2.2.1 rfl)
      rcases hS : Storage.setslot s2
          ((s2.oldest_item_idx + s2.num_items) % max 1 s2.capacity_items) item avail
        with ⟨s3, e2⟩
      have hsf := setslot_fields s2
        ((s2.oldest_item_idx + s2.num_items) % max 1 s2.capacity_items) item avail
      rw [hS] at hsf
      dsimp only at hsf
      rcases e2 with _ | e2
      · dsimp only
        split <;> dsimp only <;> omega
      · dsimp only
        omega
    · dsimp only
      omega

/-- Witness for claim C1 on a concrete full storage. -/
theorem claim_C1_witness :
    (Storage.add exFull3 ⟨1, 9⟩ bigA).1.num_items ≤ exFull3.capacity_items ∧
    (Storage.add (Storage.init .inMemory 3 none none) ⟨1, 1⟩ bigA).2.1 = 0 ∧
    (Storage.add exFull3 ⟨1, 4⟩ bigA).2.1 = 1 ∧
    (Storage.add exTs2 ⟨2, 1⟩ bigA).2.1 = 2 :=
  claim_C1 exFull3 ⟨1, 9⟩ bigA (by decide)

/-- Claim C2 (amended): when the resource-forecast guard rejects the write
inside `add`, the propagated `ValueError` leaves the buffer in the
post-eviction intermediate state: the lifetime and live counters were
already incremented and every eviction of this `add` call is already
committed; only the slot write and the `num_items` increment are skipped.
The prior state is therefore not restored (see `claim_C2_cex`). -/
theorem claim_C2 (s : Storage) (item : Item) (avail : Nat) (t : Storage) (k : Nat)
    (h : Storage.add s item avail = (t, k, some .valueCapacity)) :
    t = (Storage.evictLoopN s.num_items
          { s with num_timesteps_added := s.num_timesteps_added + item.count
                   num_timesteps := s.num_timesteps + item.count
                   size_bytes := s.size_bytes + item.size_bytes }).1 ∧
    t.num_timesteps_added = s.num_timesteps_added + item.count ∧
    t.num_items < s.capacity_items := by
  unfold Storage.add at h
  split at h
  case isTrue => simp at h
  case isFalse hbig =>
    dsimp only at h
    rcases hE : Storage.evictLoopN s.num_items
        { s with num_timesteps_added := s.num_timesteps_added + item.count
                 num_timesteps := s.num_timesteps + item.count
                 size_bytes := s.size_bytes + item.size_bytes } with ⟨s2, k2, e⟩
    have hspec := evictLoopN_spec s.num_items
      { s with num_timesteps_added := s.num_timesteps_added + item.count
               num_timesteps := s.num_timesteps + item.count
               size_bytes := s.size_bytes + item.size_bytes }
    rw [hE] at hspec h
    dsimp only at hspec h
    rcases e with _ | e
    · dsimp only at h
      rcases hS : Storage.setslot s2
          ((s2.oldest_item_idx + s2.num_items) % max 1 s2.capacity_items) item avail
        with ⟨s3, e2⟩
      have hsf := setslot_fields s2
        ((s2.oldest_item_idx + s2.num_items) % max 1 s2.capacity_items) item avail
      rw [hS] at hsf h
      dsimp only at hsf h
      have hcf := evictCond_false_lt s2 (hspec.2.2.2.2.2.1 rfl)
      rcases e2 with _ | e2
      · dsimp only at h
        split at h <;> simp at h
      · dsimp only at h
        obtain ⟨rfl, -, -⟩ : s3 = t ∧ k2 = k ∧ e2 = .valueCapacity := by
          simpa [Prod.ext_iff] using h
        unfold Storage.setslot at hS
        rcases hw : Storage.warnCheck s2 item avail with _ | w
        · rw [hw] at hS
          simp at hS
        · rw [hw] at hS
          dsimp only at hS
          obtain ⟨rfl, -⟩ : s2 = s3 ∧ some w = some e2 := by
            simpa [Prod.ext_iff] using hS
          exact ⟨rfl, by omega, by omega⟩
    · dsimp only at h
      obtain ⟨-, -, he⟩ : s2 = t ∧ k2 = k ∧ e = .valueCapacity := by
        simpa [Prod.ext_iff] using h
      exact absurd (by rw [he]) hspec.2.2.2.2.2.2.1

/-- The state in which the concrete capacity-guard rejection of
`claim_C2_witness` leaves the buffer: counters bumped, nothing stored. -/
def tW : Storage :=
  { sInit2 with num_timesteps_added := 1, num_timesteps := 1, size_bytes := 1 }

/-- Witness for claim C2: adding a one-byte item to an empty two-slot
storage with zero free memory trips the guard, and the resulting state is
the counter-bumped one. -/
theorem claim_C2_witness :
    tW = (Storage.evictLoopN sInit2.num_items
          { sInit2 with
              num_timesteps_added := sInit2.num_timesteps_added + (Item.mk 1 1).count
              num_timesteps := sInit2.num_timesteps + (Item.mk 1 1).count
              size_bytes := sInit2.size_bytes + (Item.mk 1 1).size_bytes }).1 ∧
    tW.num_timesteps_added = sInit2.num_timesteps_added + (Item.mk 1 1).count ∧
    tW.num_items < sInit2.capacity_items :=
  claim_C2 sInit2 ⟨1, 1⟩ 0 tW 0 (by decide)

/-- Counterexample to claim C2 as stated: the guard rejection during `add`
does not leave the prior state intact — the counters have already moved. -/
theorem claim_C2_cex :
    (Storage.add sInit2 ⟨1, 1⟩ 0).2.2 = some .valueCapacity ∧
    (Storage.add sInit2 ⟨1, 1⟩ 0).1 ≠ sInit2 := by
  decide

/-- The first wrap loop is a no-op on a nonnegative key. -/
lemma whileUp_nonneg (fuel : Nat) (len i : Int) (h : 0 ≤ i) :
    whileUp fuel len i = some i := by
  cases fuel <;> simp [whileUp, not_lt.mpr h]

/-- With positive length the first wrap loop terminates within `natAbs i`
iterations and computes the Python modulus for a negative key. -/
lemma whileUp_eq (len : Int) (hlen : 0 < len) :
    ∀ (fuel : Nat) (i : Int), (i < 0 → i.natAbs ≤ fuel) →
      whileUp fuel len i = some (if i < 0 then i % len else i) := by
  intro fuel
  induction fuel with
  | zero =>
    intro i hf
    have : ¬ i < 0 := by
      intro hi
      have := hf hi
      omega
    simp [whileUp, this]
  | succ n ih =>
    intro i hf
    by_cases hi : i < 0
    · rw [if_pos hi]
      simp only [whileUp, if_pos hi]
      have step := ih (i + len) (by intro h2; omega)
      rw [step]
      by_cases h2 : i + len < 0
      · rw [if_pos h2]
        have h5 : (i + len * 1) % len = i % len := Int.add_mul_emod_self_left i len 1
        simp only [mul_one] at h5
        rw [h5]
      · rw [if_neg h2]
        have h3 : 0 ≤ i + len := by omega
        have h4 : i + len < len := by omega
        have h5 : (i + len * 1) % len = i % len := Int.add_mul_emod_self_left i len 1
        simp only [mul_one] at h5
        rw [← h5, Int.emod_eq_of_lt h3 h4]
    · rw [if_neg hi]
      simp [whileUp, hi]

/-- The second wrap loop is a no-op on a key below the length. -/
lemma whileDown_lt (fuel : Nat) (len i : Int) (h : i < len) :
    whileDown fuel len i = some i := by
  cases fuel <;> simp [whileDown, not_le.mpr h]

/-- With positive length the second wrap loop terminates within `natAbs i`
iterations and computes the Python modulus for a nonnegative key. -/
lemma whileDown_eq (len : Int) (hlen : 0 < len) :
    ∀ (fuel : Nat) (i : Int), 0 ≤ i → i.natAbs ≤ fuel →
      whileDown fuel len i = some (i % len) := by
  intro fuel
  induction fuel with
  | zero =>
    intro i h0 hf
    have hz : i = 0 := by omega
    subst hz
    simp [whileDown, not_le.mpr hlen]
  | succ n ih =>
    intro i h0 hf
    by_cases hge : i ≥ len
    · simp only [whileDown, if_pos hge]
      have step := ih (i - len) (by omega) (by omega)
      rw [step]
      have h5 : (i + len * (-1)) % len = i % len := Int.add_mul_emod_self_left i len (-1)
      have h2 : i + len * (-1) = i - len := by ring
      rw [h2] at h5
      rw [h5]
    · have hlt : i < len := by omega
      rw [whileDown_lt _ _ _ hlt, Int.emod_eq_of_lt h0 hlt]

/-- With positive length the index normalization of `__getitem__` terminates
with fuel `natAbs i` and yields the Python modulus of the key. -/
lemma normIdx_eq (len : Int) (hlen : 0 < len) (i : Int) :
    normIdx i.natAbs len i = some (i % len) := by
  unfold normIdx
  by_cases hi : i < 0
  · rw [whileUp_eq len hlen i.natAbs i (by omega)]
    rw [if_pos hi]
    have h0 : 0 ≤ i % len := Int.emod_nonneg i (by omega)
    have h1 : i % len < len := Int.emod_lt_of_pos i hlen
    dsimp only
    rw [whileDown_lt _ _ _ h1]
  · rw [whileUp_nonneg _ _ _ (by omega)]
    exact whileDown_eq len hlen i.natAbs i (by omega) (le_refl _)

/-- With zero length the first wrap loop never terminates on a negative key. -/
lemma whileUp_zero (fuel : Nat) (i : Int) (h : i < 0) :
    whileUp fuel 0 i = none := by
  induction fuel with
  | zero => simp [whileUp, h]
  | succ n ih => simpa [whileUp, h] using ih

/-- With zero length the second wrap loop never terminates on a nonnegative
key. -/
lemma whileDown_zero (fuel : Nat) (i : Int) (h : 0 ≤ i) :
    whileDown fuel 0 i = none := by
  induction fuel with
  | zero => simp [whileDown, h]
  | succ n ih => simpa [whileDown, h] using ih

/-- With zero length the index normalization diverges for every key and
every fuel. -/
lemma normIdx_zero (fuel : Nat) (i : Int) : normIdx fuel 0 i = none := by
  unfold normIdx
  by_cases hi : i < 0
  · rw [whileUp_zero fuel i hi]
  · rw [whileUp_nonneg fuel 0 i (by omega)]
    exact whileDown_zero fuel i (by omega)

/-- More fuel never changes a first-wrap-loop run that finished. -/
lemma whileUp_mono (f g : Nat) (len i r : Int) (h : whileUp f len i = some r)
    (hfg : f ≤ g) : whileUp g len i = some r := by
  induction f generalizing i g with
  | zero =>
    simp only [whileUp] at h
    split at h
    case isTrue hi => simp at h
    case isFalse hi =>
      obtain rfl : i = r := by simpa using h
      cases g <;> simp [whileUp, hi]
  | succ n ih =>
    simp only [whileUp] at h
    split at h
    case isTrue hi =>
      rcases g with _ | g
      · omega
      · simp only [whileUp, if_pos hi]
        exact ih g (i + len) h (by omega)
    case isFalse hi =>
      obtain rfl : i = r := by simpa using h
      cases g <;> simp [whileUp, hi]

/-- More fuel never changes a second-wrap-loop run that finished. -/
lemma whileDown_mono (f g : Nat) (len i r : Int) (h : whileDown f len i = some r)
    (hfg : f ≤ g) : whileDown g len i = some r := by
  induction f generalizing i g with
  | zero =>
    simp only [whileDown] at h
    split at h
    case isTrue hi => simp at h
    case isFalse hi =>
      obtain rfl : i = r := by simpa using h
      cases g <;> simp [whileDown, hi]
  | succ n ih =>
    simp only [whileDown] at h
    split at h
    case isTrue hi =>
      rcases g with _ | g
      · omega
      · simp only [whileDown, if_pos hi]
        exact ih g (i - len) h (by omega)
    case isFalse hi =>
      obtain rfl : i = r := by simpa using h
      cases g <;> simp [whileDown, hi]

/-- More fuel never changes a normalization that finished. -/
lemma normIdx_mono (f g : Nat) (len i r : Int) (h : normIdx f len i = some r)
    (hfg : f ≤ g) : normIdx g len i = some r := by
  unfold normIdx at h ⊢
  rcases hu : whileUp f len i with _ | j
  · rw [hu] at h
    simp at h
  · rw [hu] at h
    rw [whileUp_mono f g len i j hu hfg]
    exact whileDown_mono f g len j r h hfg

/-- Whenever the wrap loops terminate, the integer read does not diverge,
whatever the outcome of the bound checks and of the backend read. -/
lemma getitemInt_ne_div (fuel : Nat) (s : Storage) (i : Int) (j : Int)
    (h : normIdx fuel (s.num_items : Int) i = some j) :
    Storage.getitemInt fuel s i ≠ GetRes.div := by
  unfold Storage.getitemInt
  rw [h]
  dsimp only
  repeat' split
  all_goals simp

/-- A storage with four slots holding two one-timestep items. -/
def sTwo : Storage :=
  (Storage.add (Storage.add
    (Storage.init .inMemory 4 none none) ⟨1, 10⟩ bigA).1 ⟨1, 20⟩ bigA).1

/-- Claim C3 (amended): on a non-empty storage an integer read of an
occupied slot never fails: any key, in range or not, is wrapped modulo
`num_items` by the two `while` loops, translated to the physical slot, that
slot hit count is incremented, and the stored item is returned without
being consumed (the state changes only in `hit_count`), for either backend. -/
theorem claim_C3 (s : Storage) (i : Int) (idx : Nat) (d : Item)
    (h : 0 < s.num_items)
    (hlen : s.hit_count.length = s.capacity_items)
    (hcap : 0 < s.capacity_items)
    (hidx : idx = (s.oldest_item_idx + (i % (s.num_items : Int)).toNat) %
      s.capacity_items)
    (hslot : s.samples.getD idx none = some d) :
    Storage.getitemInt i.natAbs s i =
      .ok { s with hit_count := s.hit_count.set idx (s.hit_count.getD idx 0 + 1) }
        (some d) := by
  subst hidx
  unfold Storage.getitemInt
  have hlen2 : (0 : Int) < (s.num_items : Int) := by exact_mod_cast h
  rw [normIdx_eq _ hlen2 i]
  dsimp only
  have h0 : 0 ≤ i % (s.num_items : Int) := Int.emod_nonneg i (by omega)
  rw [if_neg (by omega)]
  have hm : max 1 s.capacity_items = s.capacity_items := by omega
  rw [hm]
  rw [if_pos (by rw [hlen]; exact Nat.mod_lt _ hcap)]
  rcases hb : s.backend <;> dsimp only
  · rw [if_pos (getD_some_lt hslot), hslot]
  · rw [hslot]

/-- The physical slot the key `-3` resolves to on `sTwo`. -/
def idxW : Nat :=
  (sTwo.oldest_item_idx + ((-3 : Int) % (sTwo.num_items : Int)).toNat) %
    sTwo.capacity_items

/-- Witness for claim C3 at the negative key `-3` on a two-item storage. -/
theorem claim_C3_witness :
    Storage.getitemInt (Int.natAbs (-3)) sTwo (-3) =
      .ok { sTwo with hit_count := sTwo.hit_count.set idxW (sTwo.hit_count.getD idxW 0 + 1) }
        (some ⟨1, 20⟩) :=
  claim_C3 sTwo (-3) idxW ⟨1, 20⟩ (by decide) (by decide) (by decide) rfl (by decide)

/-- Counterexample to claim C3 as stated: on a storage of length 2 the
out-of-range key 5 does not raise an out-of-range error; it wraps to logical
index 1 and succeeds. -/
theorem claim_C3_cex :
    sTwo.num_items = 2 ∧
    Storage.getitemInt 5 sTwo 5 =
      .ok { sTwo with hit_count := sTwo.hit_count.set 1 1 } (some ⟨1, 20⟩) := by
  decide

/-- A non-empty view over an empty parent, constructible because explicit
slice bounds are not clamped to the parent length. -/
def vBad : StorageView :=
  StorageView.init (Storage.init .inMemory 3 none none) (some 2) (some 5) (some 1)

/-- Claim C10 (amended): integer reads on a plain storage terminate exactly
when the storage is non-empty; on a view the wrap loops run over the view
length and the read recurses into the parent, so it terminates when both
view and parent are non-empty, and diverges whenever the view is empty or
the parent is empty (a non-empty view over an empty parent diverges in the
parent loop, refuting the claimed equivalence for views: `claim_C10_cex`). -/
theorem claim_C10 (s : Storage) (i : Int) (v : StorageView) (kk : Int) :
    ((∃ f, Storage.getitemInt f s i ≠ .div) ↔ 0 < s.num_items) ∧
    (0 < v.idx_map.length → 0 < v.storage.num_items →
      ∃ f, StorageView.getitemInt f v kk ≠ .div) ∧
    (v.idx_map.length = 0 ∨ v.storage.num_items = 0 →
      ∀ f, StorageView.getitemInt f v kk = .div) := by
  refine ⟨⟨?_, ?_⟩, ?_, ?_⟩
  · rintro ⟨f, hf⟩
    by_contra h0
    have hz : s.num_items = 0 := by omega
    apply hf
    unfold Storage.getitemInt
    rw [show ((s.num_items : Nat) : Int) = 0 by rw [hz]; rfl, normIdx_zero]
  · intro h
    exact ⟨i.natAbs, getitemInt_ne_div _ _ _ _ (normIdx_eq _ (by exact_mod_cast h) i)⟩
  · intro hm hp
    set idx := v.idx_map.getD ((kk % (v.idx_map.length : Int)).toNat) 0 with hidx
    refine ⟨max kk.natAbs idx.natAbs, ?_⟩
    unfold StorageView.getitemInt
    have h1 : normIdx kk.natAbs (v.idx_map.length : Int) kk =
        some (kk % (v.idx_map.length : Int)) :=
      normIdx_eq _ (by exact_mod_cast hm) kk
    rw [normIdx_mono kk.natAbs (max kk.natAbs idx.natAbs) _ _ _ h1 (by omega)]
    dsimp only
    rw [← hidx]
    have h2 : normIdx idx.natAbs (v.storage.num_items : Int) idx =
        some (idx % (v.storage.num_items : Int)) :=
      normIdx_eq _ (by exact_mod_cast hp) idx
    exact getitemInt_ne_div _ _ _ _
      (normIdx_mono idx.natAbs (max kk.natAbs idx.natAbs) _ _ _ h2 (by omega))
  · rintro (hm | hp) f
    · unfold StorageView.getitemInt
      rw [show ((v.idx_map.length : Nat) : Int) = 0 by rw [hm]; rfl, normIdx_zero]
    · unfold StorageView.getitemInt
      rcases hn : normIdx f (v.idx_map.length : Int) kk with _ | j
      · rfl
      · dsimp only
        unfold Storage.getitemInt
        rw [show ((v.storage.num_items : Nat) : Int) = 0 by rw [hp]; rfl, normIdx_zero]

/-- Witness for claim C10: a read on a non-empty storage terminates, a read
through a non-empty view of it terminates, and a read on an empty view does
not terminate within fuel 7. -/
theorem claim_C10_witness :
    (∃ f, Storage.getitemInt f exFull3 5 ≠ .div) ∧
    (∃ f, StorageView.getitemInt f (StorageView.init exFull3 none none none) 0 ≠ .div) ∧
    StorageView.getitemInt 7 (StorageView.init sInit2 none none none) 0 = .div :=
  ⟨(claim_C10 exFull3 5 (StorageView.init exFull3 none none none) 0).1.mpr (by decide),
   (claim_C10 exFull3 5 (StorageView.init exFull3 none none none) 0).2.1
     (by decide) (by decide),
   (claim_C10 exFull3 5 (StorageView.init sInit2 none none none) 0).2.2
     (Or.inl (by decide)) 7⟩

/-- Counterexample to claim C10 as stated: a view of length 3 over an empty
parent is non-empty, yet its integer read never terminates for any fuel. -/
theorem claim_C10_cex :
    0 < vBad.idx_map.length ∧ ¬ ∃ f, StorageView.getitemInt f vBad 0 ≠ .div := by
  refine ⟨by decide, ?_⟩
  rintro ⟨f, hf⟩
  apply hf
  unfold StorageView.getitemInt
  have h1 : normIdx f ((vBad.idx_map.length : Nat) : Int) 0 = some 0 := by
    unfold normIdx
    rw [whileUp_nonneg f _ 0 le_rfl]
    exact whileDown_lt f _ 0 (by decide)
  rw [h1]
  dsimp only
  have h2 : vBad.idx_map.getD ((0 : Int)).toNat 0 = 2 := by decide
  rw [h2]
  unfold Storage.getitemInt
  rw [show ((vBad.storage.num_items : Nat) : Int) = 0 by decide, normIdx_zero]

/-- Result and bookkeeping facts of `__delitem__` on an occupied slot with
an in-bounds hit-count index. -/
lemma delitem_some (s : Storage) (i : Nat) (d : Item)
    (hslot : s.samples.getD i none = some d)
    (hh : i < s.hit_count.length) :
    (Storage.delitem s i).2 = .ok (some d) ∧
    (Storage.delitem s i).1.samples.length = s.samples.length ∧
    (Storage.delitem s i).1.hit_count.getD i 0 = 0 ∧
    (Storage.delitem s i).1.evicted_hit_stats =
      s.evicted_hit_stats ++ [s.hit_count.getD i 0] ∧
    (Storage.delitem s i).1.hit_count = s.hit_count.set i 0 := by
  have hlt := getD_some_lt hslot
  unfold Storage.delitem
  rcases hb : s.backend <;> dsimp only
  · rw [if_pos hlt, if_pos hh]
    refine ⟨by rw [hslot], by simp, ?_, rfl, rfl⟩
    dsimp only
    rw [List.getD_eq_getElem?_getD, List.getElem?_set_eq_of_lt 0 (by simpa using hh)]
    rfl
  · rw [hslot]
    dsimp only
    rw [if_pos hh]
    refine ⟨rfl, rfl, ?_, rfl, rfl⟩
    dsimp only
    rw [List.getD_eq_getElem?_getD, List.getElem?_set_eq_of_lt 0 (by simpa using hh)]
    rfl

/-- Claim C8 (amended): an in-range `set(i, item)` on a storage that has
begun evicting always proceeds; the under-capacity warning fires exactly
when the replacement has MORE timesteps than the evicted item
(`evicted.count < replacement.count`, the reverse of the claimed
direction, see `claim_C8_cex`); the counters drop the evicted contribution
and gain the new one, and when the guard admits the write the new item
lands in the slot. -/
theorem claim_C8 (s : Storage) (i : Int) (item d : Item) (avail : Nat) (idx : Nat)
    (h0 : 0 ≤ i) (h1 : i < (s.num_items : Int)) (hev : s.eviction_started = true)
    (hlen : s.hit_count.length = s.capacity_items)
    (hcap : 0 < s.capacity_items)
    (hidx : idx = (s.oldest_item_idx + i.toNat) % max 1 s.capacity_items)
    (hslot : s.samples.getD idx none = some d) :
    (Storage.setitem s i item avail).2.1 = decide (d.count < item.count) ∧
    (Storage.setitem s i item avail).1.num_timesteps =
      s.num_timesteps - d.count + item.count ∧
    (Storage.setitem s i item avail).1.size_bytes =
      s.size_bytes - d.size_bytes + item.size_bytes ∧
    (Storage.setitem s i item avail).1.num_timesteps_added =
      s.num_timesteps_added + item.count ∧
    ((Storage.setitem s i item avail).2.2 = none →
      (Storage.setitem s i item avail).1.samples.getD idx none = some item) := by
  have hbound : idx < s.hit_count.length := by
    have h2 : idx < max 1 s.capacity_items := by
      rw [hidx]
      exact Nat.mod_lt _ (by omega)
    omega
  unfold Storage.setitem
  rw [if_neg (by omega), hev, if_neg (by simp), ← hidx]
  dsimp only
  rcases hd : Storage.delitem s idx with ⟨s1, r⟩
  have hfields := delitem_fields s idx
  have hsome := delitem_some s idx d hslot hbound
  rw [hd] at hfields hsome
  dsimp only at hfields hsome
  obtain ⟨hr, hslen, -, -, hhc⟩ := hsome
  subst hr
  dsimp only
  rw [if_pos (show idx < s1.hit_count.length by rw [hhc, List.length_set]; exact hbound)]
  rcases hS : Storage.setslot
      { s1 with
          evicted_hit_stats := s1.evicted_hit_stats ++ [s1.hit_count.getD idx 0]
          num_timesteps := s1.num_timesteps - ↑d.count + ↑item.count
          size_bytes := s1.size_bytes - ↑d.size_bytes + ↑item.size_bytes
          hit_count := s1.hit_count.set idx 0
          num_timesteps_added := s1.num_timesteps_added + ↑item.count }
      idx item avail with ⟨s3, e2⟩
  have hsf := setslot_fields
    { s1 with
        evicted_hit_stats := s1.evicted_hit_stats ++ [s1.hit_count.getD idx 0]
        num_timesteps := s1.num_timesteps - ↑d.count + ↑item.count
        size_bytes := s1.size_bytes - ↑d.size_bytes + ↑item.size_bytes
        hit_count := s1.hit_count.set idx 0
        num_timesteps_added := s1.num_timesteps_added + ↑item.count }
    idx item avail
  rw [hS] at hsf
  dsimp only at hsf
  refine ⟨rfl, ?_, ?_, ?_, ?_⟩
  · rw [hsf.2.2.2.2.1, hfields.2.2.2.2.1]
  · rw [hsf.2.2.2.2.2.1, hfields.2.2.2.2.2.1]
  · rw [hsf.2.2.2.2.2.2.1, hfields.2.2.2.2.2.2.1]
  · intro he
    dsimp only at he
    unfold Storage.setslot at hS
    rcases hw : Storage.warnCheck
        { s1 with
            evicted_hit_stats := s1.evicted_hit_stats ++ [s1.hit_count.getD idx 0]
            num_timesteps := s1.num_timesteps - ↑d.count + ↑item.count
            size_bytes := s1.size_bytes - ↑d.size_bytes + ↑item.size_bytes
            hit_count := s1.hit_count.set idx 0
            num_timesteps_added := s1.num_timesteps_added + ↑item.count }
        item avail with _ | w
    · rw [hw] at hS
      dsimp only at hS
      injection hS with hs3 he2
      dsimp only
      rw [← hs3]
      dsimp only
      have hidxlen : idx < s1.samples.length := by
        rw [hslen]
        exact getD_some_lt hslot
      rw [if_neg (by omega)]
      rw [List.getD_eq_getElem?_getD, List.getElem?_set_eq_of_lt (some item) hidxlen]
      rfl
    · rw [hw] at hS
      dsimp only at hS
      injection hS with hs3 he2
      rw [← he2] at he
      simp at he

/-- A one-slot storage in eviction mode holding a five-timestep item. -/
def sSet : Storage :=
  { Storage.init .inMemory 1 none none with
      num_items := 1
      eviction_started := true
      num_timesteps := 5
      num_timesteps_added := 5
      size_bytes := 9
      samples := [some ⟨5, 9⟩] }

/-- Witness for claim C8: replacing the five-timestep item of `sSet` by a
seven-timestep one warns (more timesteps than evicted) and updates counters. -/
theorem claim_C8_witness :
    (Storage.setitem sSet 0 ⟨7, 2⟩ bigA).2.1 =
      decide ((Item.mk 5 9).count < (Item.mk 7 2).count) ∧
    (Storage.setitem sSet 0 ⟨7, 2⟩ bigA).1.num_timesteps =
      sSet.num_timesteps - (Item.mk 5 9).count + (Item.mk 7 2).count ∧
    (Storage.setitem sSet 0 ⟨7, 2⟩ bigA).1.size_bytes =
      sSet.size_bytes - (Item.mk 5 9).size_bytes + (Item.mk 7 2).size_bytes ∧
    (Storage.setitem sSet 0 ⟨7, 2⟩ bigA).1.num_timesteps_added =
      sSet.num_timesteps_added + (Item.mk 7 2).count ∧
    ((Storage.setitem sSet 0 ⟨7, 2⟩ bigA).2.2 = none →
      (Storage.setitem sSet 0 ⟨7, 2⟩ bigA).1.samples.getD 0 none = some ⟨7, 2⟩) :=
  claim_C8 sSet 0 ⟨7, 2⟩ ⟨5, 9⟩ bigA 0 (by decide) (by decide) (by decide)
    (by decide) (by decide) (by decide) (by decide)

/-- Counterexample to claim C8 as stated: a replacement with fewer
timesteps (3 against the stored 5) does not trigger the warning, while a
replacement with more timesteps (7 against 5) does — the warning condition
in the source is the reverse of the claimed one. -/
theorem claim_C8_cex :
    sSet.samples.getD 0 none = some ⟨5, 9⟩ ∧
    (Storage.setitem sSet 0 ⟨3, 1⟩ bigA).2.1 = false ∧
    (Storage.setitem sSet 0 ⟨7, 2⟩ bigA).2.1 = true := by
  decide

/-- Claim C9 (amended): an eviction during `add` sets `eviction_started`,
records the evicted slot hit count into the eviction stats and then — via
`__delitem__` — records the freshly zeroed count a second time (two pushed
values per eviction, not one), zeroes the slot hit count, subtracts the
dropped item timesteps and bytes, decrements `num_items` and advances the
oldest slot by one modulo `capacity_items`. -/
theorem claim_C9 (s : Storage) (d : Item)
    (hlen : s.hit_count.length = s.capacity_items)
    (hcap : 0 < s.capacity_items)
    (ho : s.oldest_item_idx < s.capacity_items)
    (hslot : s.samples.getD s.oldest_item_idx none = some d) :
    (Storage.evictOnce s).2 = .ok d ∧
    (Storage.evictOnce s).1.evicted_hit_stats =
      s.evicted_hit_stats ++ [s.hit_count.getD s.oldest_item_idx 0, 0] ∧
    (Storage.evictOnce s).1.hit_count.getD s.oldest_item_idx 0 = 0 ∧
    (Storage.evictOnce s).1.num_timesteps = s.num_timesteps - d.count ∧
    (Storage.evictOnce s).1.size_bytes = s.size_bytes - d.size_bytes ∧
    (Storage.evictOnce s).1.num_items = s.num_items - 1 ∧
    (Storage.evictOnce s).1.oldest_item_idx =
      (s.oldest_item_idx + 1) % s.capacity_items ∧
    (Storage.evictOnce s).1.eviction_started = true := by
  simp only [Storage.evictOnce]
  have hfields := delitem_fields
    { s with eviction_started := true
             evicted_hit_stats :=
               s.evicted_hit_stats ++ [s.hit_count.getD s.oldest_item_idx 0]
             hit_count := s.hit_count.set s.oldest_item_idx 0 }
    s.oldest_item_idx
  have hsome := delitem_some
    { s with eviction_started := true
             evicted_hit_stats :=
               s.evicted_hit_stats ++ [s.hit_count.getD s.oldest_item_idx 0]
             hit_count := s.hit_count.set s.oldest_item_idx 0 }
    s.oldest_item_idx d hslot (by simp only [List.length_set]; omega)
  rcases hd : Storage.delitem
      { s with eviction_started := true
               evicted_hit_stats :=
                 s.evicted_hit_stats ++ [s.hit_count.getD s.oldest_item_idx 0]
               hit_count := s.hit_count.set s.oldest_item_idx 0 }
      s.oldest_item_idx with ⟨s2, r⟩
  rw [hd] at hfields hsome
  dsimp only at hfields hsome
  obtain ⟨hr, -, hzero, hstats, hhc⟩ := hsome
  subst hr
  dsimp only
  have hmax : max 1 s.capacity_items = s.capacity_items := by omega
  have holt : s.oldest_item_idx < s.hit_count.length := by omega
  have hz1 : (s.hit_count.set s.oldest_item_idx 0).getD s.oldest_item_idx 0 = 0 := by
    rw [List.getD_eq_getElem?_getD, List.getElem?_set_eq_of_lt 0 (by simpa using holt)]
    rfl
  have hz2 :
      ((s.hit_count.set s.oldest_item_idx 0).set s.oldest_item_idx 0).getD
        s.oldest_item_idx 0 = 0 := by
    rw [List.getD_eq_getElem?_getD, List.getElem?_set_eq_of_lt 0 (by simpa using holt)]
    rfl
  refine ⟨rfl, ?_, ?_, ?_, ?_, ?_, ?_, ?_⟩
  · rw [hstats, hz1]
    simp
  · rw [hhc, hz2]
  · rw [hfields.2.2.2.2.1]
  · rw [hfields.2.2.2.2.2.1]
  · rw [hfields.2.2.2.1]
  · rw [hmax]
  · exact hfields.2.2.2.2.2.2.2.2

/-- A full one-slot storage whose only slot has hit count 7. -/
def sHit : Storage :=
  { Storage.init .inMemory 1 none none with
      num_items := 1
      num_timesteps := 1
      num_timesteps_added := 1
      size_bytes := 1
      samples := [some ⟨1, 1⟩]
      hit_count := [7] }

/-- Witness for claim C9 on `sHit`. -/
theorem claim_C9_witness :
    (Storage.evictOnce sHit).2 = .ok ⟨1, 1⟩ ∧
    (Storage.evictOnce sHit).1.evicted_hit_stats =
      sHit.evicted_hit_stats ++ [sHit.hit_count.getD sHit.oldest_item_idx 0, 0] ∧
    (Storage.evictOnce sHit).1.hit_count.getD sHit.oldest_item_idx 0 = 0 ∧
    (Storage.evictOnce sHit).1.num_timesteps = sHit.num_timesteps - (Item.mk 1 1).count ∧
    (Storage.evictOnce sHit).1.size_bytes = sHit.size_bytes - (Item.mk 1 1).size_bytes ∧
    (Storage.evictOnce sHit).1.num_items = sHit.num_items - 1 ∧
    (Storage.evictOnce sHit).1.oldest_item_idx =
      (sHit.oldest_item_idx + 1) % sHit.capacity_items ∧
    (Storage.evictOnce sHit).1.eviction_started = true :=
  claim_C9 sHit ⟨1, 1⟩ (by decide) (by decide) (by decide) (by decide)

/-- Counterexample to claim C9 as stated: one `add` call on the full
one-slot storage performs exactly one eviction and pushes TWO values into
the eviction statistics (the hit count 7, then the zeroed count), not one. -/
theorem claim_C9_cex :
    sHit.evicted_hit_stats = [] ∧
    (Storage.add sHit ⟨1, 1⟩ bigA).2.1 = 1 ∧
    (Storage.add sHit ⟨1, 1⟩ bigA).1.evicted_hit_stats = [7, 0] := by
  decide

/-- Claim C5 (amended): the view index map agrees with conventional Python
slice semantics on the region `sliceOK` — step omitted or nonzero, each
explicit bound nonzero and within `[0, len]` (positive step) or
`[1, len - 1]` (negative step) — and in particular on the two concrete
examples of the claim; outside that region the Python `or`-defaulting and
missing clamping make the view diverge from Python semantics
(`claim_C5_cex`). -/
theorem claim_C5 (len : Nat) (start stop step : Option Int)
    (h : sliceOK len start stop step) :
    viewIdxMap len start stop step = pySliceIndices len start stop step ∧
    viewIdxMap 10 (some 2) (some 8) (some 2) = [2, 4, 6] ∧
    viewIdxMap 10 none none (some (-1)) = [9, 8, 7, 6, 5, 4, 3, 2, 1, 0] := by
  refine ⟨?_, by decide, by decide⟩
  obtain ⟨hstep, hb⟩ := h
  rcases hstep with rfl | ⟨v, rfl, hvne⟩
  · dsimp only [Option.getD] at hb
    rw [if_pos (by norm_num)] at hb
    obtain ⟨hstart, hstop⟩ := hb
    unfold viewIdxMap pySliceIndices
    dsimp only [Option.getD]
    rw [if_pos (by norm_num : (1 : Int) > 0), if_pos (by norm_num : (1 : Int) > 0)]
    rcases hstart with rfl | ⟨a, rfl, ha0, hale⟩ <;>
      rcases hstop with rfl | ⟨t, rfl, ht1, htle⟩ <;>
      dsimp only <;> congr 1 <;> split_ifs <;> omega
  · dsimp only [Option.getD] at hb
    rcases lt_or_gt_of_ne hvne with hneg | hpos
    · rw [if_neg (by omega)] at hb
      obtain ⟨hstart, hstop⟩ := hb
      unfold viewIdxMap pySliceIndices
      dsimp only [Option.getD]
      rw [if_neg hvne, if_neg (by omega : ¬ v > 0), if_neg (by omega : ¬ v > 0)]
      rcases hstart with rfl | ⟨a, rfl, ha1, hale⟩ <;>
        rcases hstop with rfl | ⟨t, rfl, ht1, htle⟩ <;>
        simp only [reduceCtorEq, if_true, if_false] <;>
        congr 1 <;> (try split_ifs) <;> omega
    · rw [if_pos hpos] at hb
      obtain ⟨hstart, hstop⟩ := hb
      unfold viewIdxMap pySliceIndices
      dsimp only [Option.getD]
      rw [if_neg hvne, if_pos hpos, if_pos hpos]
      rcases hstart with rfl | ⟨a, rfl, ha0, hale⟩ <;>
        rcases hstop with rfl | ⟨t, rfl, ht1, htle⟩ <;>
        dsimp only <;> congr 1 <;> split_ifs <;> omega

/-- Witness for claim C5 at `slice(3, 7, 2)` over a length-10 parent. -/
theorem claim_C5_witness :
    viewIdxMap 10 (some 3) (some 7) (some 2) =
      pySliceIndices 10 (some 3) (some 7) (some 2) ∧
    viewIdxMap 10 (some 2) (some 8) (some 2) = [2, 4, 6] ∧
    viewIdxMap 10 none none (some (-1)) = [9, 8, 7, 6, 5, 4, 3, 2, 1, 0] :=
  claim_C5 10 (some 3) (some 7) (some 2)
    ⟨Or.inr ⟨2, rfl, by norm_num⟩, by norm_num⟩

/-- Counterexample to claim C5 as stated: with an explicit stop of `0` and
step `1` the view materializes all ten indices while Python slicing yields
the empty list — the Python `or` treats the falsy `0` as an omitted bound. -/
theorem claim_C5_cex :
    viewIdxMap 10 none (some 0) (some 1) = [0, 1, 2, 3, 4, 5, 6, 7, 8, 9] ∧
    pySliceIndices 10 none (some 0) (some 1) = [] := by
  decide
